import Mathlib

/-!
Verification of the paginated image-catalog loader (`loadImages` in
`src/app/page.tsx`).  The loader paginates through an object-storage
listing under the fixed path `"images/"` with page size 100, keeps only
items whose lowercased path ends with one of the recognized image
extensions, resolves a signed URL (expiry 3600 seconds) for every
retained item, and accumulates the records; on any storage failure the
whole call fails and the displayed state is left unchanged.

The embedding models the storage SDK as a `Store` of two calls
(`list` and `getUrl`), records every outbound request in a trace of
`StorageOp`, and runs the source's `while (hasNextPage)` loop as a
fuel-indexed recursion (`none` = fuel exhausted, which a finite paged
store never hits).
-/

/-- JS `String.prototype.toLowerCase` on the character sequence. -/
def strToLower (s : String) : String := ⟨s.data.map Char.toLower⟩

/-- JS `String.prototype.endsWith`: suffix test on the character sequence. -/
def strEndsWith (s suf : String) : Bool := suf.data.isSuffixOf s.data

/-- JS truthiness of an optional string (`!!x`): `undefined` and `""` are
falsy, every other string is truthy. -/
def jsTruthy : Option String → Bool
  | none => false
  | some s => !(s == "")

/-- One listed object as reported by the storage `list` call
(`item.path`, `item.size`, `item.lastModified`); size and last-modified
time may be absent. -/
structure StorageItem where
  path : String
  size : Option Nat
  lastModified : Option Nat
deriving DecidableEq

/-- Response of one `list` call: the page's items and the optional
continuation token. -/
structure ListResult where
  items : List StorageItem
  nextToken : Option String
deriving DecidableEq

/-- The record built per retained image (interface `ImageItem` in the
source): key, signed URL, optional size and last-modified time. -/
structure ImageItem where
  key : String
  url : String
  size : Option Nat
  lastModified : Option Nat
deriving DecidableEq

/-- One outbound storage request.  The SDK offers `list`, `getUrl`,
`uploadData` and `remove`; the loader is expected to issue only the
first two, and the trace lets us prove that. -/
inductive StorageOp where
  | listOp (path : String) (pageSize : Nat) (nextToken : Option String)
  | getUrlOp (path : String) (expiresIn : Nat)
  | uploadOp (path : String)
  | removeOp (path : String)
deriving DecidableEq

/-- The storage service: `list path pageSize nextToken` and
`getUrl path expiresIn`; either call may fail (`Except.error`),
modelling a rejected SDK promise. -/
structure Store where
  list : String → Nat → Option String → Except Unit ListResult
  getUrl : String → Nat → Except Unit String

/-- The filter applied to each listed item (source lines 40-49):
lowercase the path and test it against the five recognized image
extensions. -/
def isImageFile (item : StorageItem) : Bool :=
  let path := strToLower item.path
  strEndsWith path ".jpg" ||
  strEndsWith path ".jpeg" ||
  strEndsWith path ".png" ||
  strEndsWith path ".gif" ||
  strEndsWith path ".webp"

/-- Resolution of one page's retained items (source lines 52-68): for
each item obtain a signed URL with `expiresIn := 3600` and build its
record from the item's path, the resolved URL, the item's size and its
last-modified time.  Returns the outcome together with the `getUrl`
requests issued; a failed resolution fails the whole page
(`Promise.all` semantics). -/
def resolvePage (store : Store) : List StorageItem →
    Except Unit (List ImageItem) × List StorageOp
  | [] => (.ok [], [])
  | item :: rest =>
    match store.getUrl item.path 3600 with
    | .error e => (.error e, [.getUrlOp item.path 3600])
    | .ok url =>
      let tail := resolvePage store rest
      (match tail.1 with
       | .error e => .error e
       | .ok imgs =>
         .ok ({ key := item.path, url := url, size := item.size,
                lastModified := item.lastModified } :: imgs),
       .getUrlOp item.path 3600 :: tail.2)

/-- The source's `while (hasNextPage)` pagination loop (lines 30-75),
as a fuel-indexed recursion: each round lists one page of up to 100
objects under `"images/"` with the current token, filters to image
files, resolves their URLs, appends the records to the accumulator, and
continues exactly when the returned `nextToken` is truthy.  Returns
`none` when the fuel runs out, otherwise the outcome and the trace of
storage requests issued. -/
def loadImagesLoop (store : Store) :
    Nat → Option String → List ImageItem → List StorageOp →
    Option (Except Unit (List ImageItem) × List StorageOp)
  | 0, _, _, _ => none
  | fuel + 1, nextToken, allImages, trace =>
    let trace1 := trace ++ [.listOp "images/" 100 nextToken]
    match store.list "images/" 100 nextToken with
    | .error e => some (.error e, trace1)
    | .ok result =>
      let imageFiles := result.items.filter isImageFile
      let resolved := resolvePage store imageFiles
      let trace2 := trace1 ++ resolved.2
      match resolved.1 with
      | .error e => some (.error e, trace2)
      | .ok imagesWithUrls =>
        if jsTruthy result.nextToken then
          loadImagesLoop store fuel result.nextToken
            (allImages ++ imagesWithUrls) trace2
        else
          some (.ok (allImages ++ imagesWithUrls), trace2)

/-- The loader `loadImages` (source lines 21-84): run the pagination
loop from an absent token with an empty accumulator. -/
def loadImages (store : Store) (fuel : Nat) :
    Option (Except Unit (List ImageItem) × List StorageOp) :=
  loadImagesLoop store fuel none [] []

/-- Effect of one `loadImages` call on the displayed `images` state:
`setImages(allImages)` runs only after the whole traversal succeeded
(line 77); the catch block (lines 78-80) leaves the state untouched. -/
def loadImagesSetState (store : Store) (fuel : Nat)
    (prevImages : List ImageItem) : Option (List ImageItem) :=
  match loadImages store fuel with
  | none => none
  | some (.ok imgs, _) => some imgs
  | some (.error _, _) => some prevImages

/-- A synthetic bucket: the pages its listing returns, in order, and
the signed URL the service mints for each key during this traversal. -/
structure PagedBucket where
  pages : List (List StorageItem)
  urlOf : String → String

/-- Continuation token encoding used by the synthetic store: the token
for page `i` (with `i ≥ 1`) is the string of `i` copies of `'x'`,
which is nonempty and hence truthy. -/
def encTok (i : Nat) : String := ⟨List.replicate i 'x'⟩

/-- Token with which page `i` is requested: absent for the first page,
`encTok i` afterwards. -/
def tokenFor : Nat → Option String
  | 0 => none
  | i + 1 => some (encTok (i + 1))

/-- Decoding of a continuation token back to a page index: an absent
token means the first page. -/
def pageIndexOf : Option String → Nat
  | none => 0
  | some s => s.length

/-- The honest paged store over a synthetic bucket: a `list` call with
the token for page `i` returns page `i` and a truthy continuation token
exactly when further pages remain; `getUrl` always succeeds and mints
`urlOf key`. -/
def bucketStore (b : PagedBucket) : Store where
  list := fun _ _ tok =>
    let i := pageIndexOf tok
    .ok { items := b.pages.getD i [],
          nextToken :=
            if i + 1 < b.pages.length then tokenFor (i + 1) else none }
  getUrl := fun path _ => .ok (b.urlOf path)

/-- The record the loader builds for a retained item when run against
`bucketStore b`. -/
def mkRecord (b : PagedBucket) (item : StorageItem) : ImageItem :=
  { key := item.path, url := b.urlOf item.path, size := item.size,
    lastModified := item.lastModified }

/-- Requests issued while processing page `i` of a synthetic bucket:
one `list` call followed by one `getUrl` call per retained item. -/
def pageOps (b : PagedBucket) (i : Nat) : List StorageOp :=
  .listOp "images/" 100 (tokenFor i) ::
    ((b.pages.getD i []).filter isImageFile).map
      (fun it => .getUrlOp it.path 3600)

/-- Requests issued from page `i` to the end of the traversal. -/
def traceFrom (b : PagedBucket) (i : Nat) : List StorageOp :=
  if i + 1 < b.pages.length then pageOps b i ++ traceFrom b (i + 1)
  else pageOps b i
termination_by b.pages.length - i
decreasing_by simp_wf; omega

theorem encTok_length (i : Nat) : (encTok i).length = i := by
  simp [encTok, String.length]

theorem pageIndexOf_tokenFor (i : Nat) : pageIndexOf (tokenFor i) = i := by
  cases i with
  | zero => rfl
  | succ j => simp [tokenFor, pageIndexOf, encTok_length]

theorem jsTruthy_tokenFor_succ (i : Nat) : jsTruthy (tokenFor (i + 1)) = true := by
  simp [tokenFor, jsTruthy]
  intro h
  have := congrArg String.length h
  simp [encTok_length] at this

theorem resolvePage_bucketStore (b : PagedBucket) (l : List StorageItem) :
    resolvePage (bucketStore b) l =
      (.ok (l.map (mkRecord b)), l.map (fun it => .getUrlOp it.path 3600)) := by
  induction l with
  | nil => rfl
  | cons hd tl ih =>
    have hg : (bucketStore b).getUrl hd.path 3600 = .ok (b.urlOf hd.path) := rfl
    simp [resolvePage, hg, ih, mkRecord]

theorem bucketStore_list (b : PagedBucket) (i : Nat) :
    (bucketStore b).list "images/" 100 (tokenFor i) =
      .ok { items := b.pages.getD i [],
            nextToken :=
              if i + 1 < b.pages.length then tokenFor (i + 1) else none } := by
  show Except.ok _ = _
  rw [pageIndexOf_tokenFor]

theorem loadImagesLoop_bucketStore_step (b : PagedBucket) (m i : Nat)
    (acc : List ImageItem) (tr : List StorageOp) :
    loadImagesLoop (bucketStore b) (m + 1) (tokenFor i) acc tr =
      if i + 1 < b.pages.length then
        loadImagesLoop (bucketStore b) m (tokenFor (i + 1))
          (acc ++ ((b.pages.getD i []).filter isImageFile).map (mkRecord b))
          (tr ++ pageOps b i)
      else
        some (.ok (acc ++ ((b.pages.getD i []).filter isImageFile).map (mkRecord b)),
              tr ++ pageOps b i) := by
  by_cases hc : i + 1 < b.pages.length
  · simp only [loadImagesLoop, bucketStore_list, resolvePage_bucketStore,
      if_pos hc, jsTruthy_tokenFor_succ, pageOps]
    simp
  · simp only [loadImagesLoop, bucketStore_list, resolvePage_bucketStore,
      if_neg hc, jsTruthy, pageOps]
    simp

theorem flatten_drop_last (b : PagedBucket) (i : Nat)
    (hc : ¬ i + 1 < b.pages.length) :
    (b.pages.drop i).flatten = b.pages.getD i [] := by
  by_cases hi : i < b.pages.length
  · rw [List.drop_eq_getElem_cons hi, List.drop_eq_nil_of_le (by omega),
      List.getD_eq_getElem _ _ hi]
    simp
  · rw [List.drop_eq_nil_of_le (by omega), List.getD_eq_default _ _ (by omega)]
    rfl

theorem traceFrom_eq_of_lt (b : PagedBucket) (i : Nat)
    (hc : i + 1 < b.pages.length) :
    traceFrom b i = pageOps b i ++ traceFrom b (i + 1) := by
  rw [traceFrom, if_pos hc]

theorem traceFrom_eq_of_last (b : PagedBucket) (i : Nat)
    (hc : ¬ i + 1 < b.pages.length) :
    traceFrom b i = pageOps b i := by
  rw [traceFrom, if_neg hc]

theorem loadImagesLoop_bucketStore (b : PagedBucket) :
    ∀ (n i : Nat) (acc : List ImageItem) (tr : List StorageOp),
      b.pages.length ≤ i + n + 1 →
      loadImagesLoop (bucketStore b) (n + 1) (tokenFor i) acc tr =
        some (.ok (acc ++ ((b.pages.drop i).flatten.filter isImageFile).map (mkRecord b)),
              tr ++ traceFrom b i) := by
  intro n
  induction n with
  | zero =>
    intro i acc tr hlen
    have hc : ¬ i + 1 < b.pages.length := by omega
    rw [loadImagesLoop_bucketStore_step, if_neg hc, traceFrom_eq_of_last b i hc,
      flatten_drop_last b i hc]
  | succ m ih =>
    intro i acc tr hlen
    by_cases hc : i + 1 < b.pages.length
    · rw [loadImagesLoop_bucketStore_step, if_pos hc,
        ih (i + 1) _ _ (by omega), traceFrom_eq_of_lt b i hc,
        List.drop_eq_getElem_cons (show i < b.pages.length by omega),
        List.getD_eq_getElem _ _ (show i < b.pages.length by omega)]
      simp only [List.flatten_cons, List.filter_append, List.map_append,
        List.append_assoc]
    · rw [loadImagesLoop_bucketStore_step, if_neg hc, traceFrom_eq_of_last b i hc,
        flatten_drop_last b i hc]

theorem loadImages_bucketStore (b : PagedBucket) (n : Nat)
    (hlen : b.pages.length ≤ n + 1) :
    loadImages (bucketStore b) (n + 1) =
      some (.ok ((b.pages.flatten.filter isImageFile).map (mkRecord b)),
            traceFrom b 0) := by
  have h := loadImagesLoop_bucketStore b n 0 [] [] (by omega)
  simpa [loadImages, tokenFor] using h

/-- Discriminator for `list` requests in a trace. -/
def isListRequest : StorageOp → Bool
  | .listOp _ _ _ => true
  | _ => false

/-- The `list` requests of a trace, in order. -/
def listOpsOf (tr : List StorageOp) : List StorageOp := tr.filter isListRequest

theorem listOpsOf_pageOps (b : PagedBucket) (i : Nat) :
    listOpsOf (pageOps b i) = [.listOp "images/" 100 (tokenFor i)] := by
  simp [listOpsOf, pageOps, isListRequest, List.filter_map]

theorem listOpsOf_traceFrom (b : PagedBucket) :
    ∀ (n i : Nat), b.pages.length - i ≤ n →
      listOpsOf (traceFrom b i) =
        (List.range' i (max 1 (b.pages.length - i))).map
          (fun j => .listOp "images/" 100 (tokenFor j)) := by
  intro n
  induction n with
  | zero =>
    intro i h
    have hc : ¬ i + 1 < b.pages.length := by omega
    rw [traceFrom_eq_of_last b i hc, listOpsOf_pageOps]
    have hm : max 1 (b.pages.length - i) = 1 := by omega
    rw [hm]
    rfl
  | succ m ih =>
    intro i h
    by_cases hc : i + 1 < b.pages.length
    · rw [traceFrom_eq_of_lt b i hc]
      show (pageOps b i ++ traceFrom b (i + 1)).filter isListRequest = _
      rw [List.filter_append]
      show listOpsOf (pageOps b i) ++ listOpsOf (traceFrom b (i + 1)) = _
      rw [listOpsOf_pageOps, ih (i + 1) (by omega)]
      have h1 : max 1 (b.pages.length - i) = (b.pages.length - (i + 1)) + 1 := by
        omega
      have h2 : max 1 (b.pages.length - (i + 1)) = b.pages.length - (i + 1) := by
        omega
      rw [h1, h2, List.range'_succ]
      simp
    · rw [traceFrom_eq_of_last b i hc, listOpsOf_pageOps]
      have hm : max 1 (b.pages.length - i) = 1 := by omega
      rw [hm]
      rfl

theorem resolvePage_ops (store : Store) :
    ∀ (items : List StorageItem), ∀ op ∈ (resolvePage store items).2,
      ∃ p, op = .getUrlOp p 3600 := by
  intro items
  induction items with
  | nil => simp [resolvePage]
  | cons hd tl ih =>
    intro op hop
    cases hg : store.getUrl hd.path 3600 with
    | error e =>
      simp [resolvePage, hg] at hop
      exact ⟨hd.path, hop⟩
    | ok url =>
      simp [resolvePage, hg] at hop
      rcases hop with h | h
      · exact ⟨hd.path, h⟩
      · exact ih op h

theorem resolvePage_ok (store : Store) :
    ∀ (items : List StorageItem) (imgs : List ImageItem),
      (resolvePage store items).1 = .ok imgs →
      List.Forall₂ (fun item img =>
        img.key = item.path ∧
        store.getUrl item.path 3600 = .ok img.url ∧
        img.size = item.size ∧ img.lastModified = item.lastModified)
        items imgs := by
  intro items
  induction items with
  | nil =>
    intro imgs h
    simp [resolvePage] at h
    subst h
    exact List.Forall₂.nil
  | cons hd tl ih =>
    intro imgs h
    cases hg : store.getUrl hd.path 3600 with
    | error e => simp [resolvePage, hg] at h
    | ok url =>
      cases ht : (resolvePage store tl).1 with
      | error e => simp [resolvePage, hg, ht] at h
      | ok tlimgs =>
        simp [resolvePage, hg, ht] at h
        subst h
        exact List.Forall₂.cons ⟨rfl, hg, rfl, rfl⟩ (ih tlimgs ht)

/-- Discriminator for read requests (`list` and `getUrl`): the two SDK
calls a pure listing traversal is allowed to make. -/
def isReadRequest : StorageOp → Bool
  | .listOp _ _ _ => true
  | .getUrlOp _ _ => true
  | _ => false

theorem loadImagesLoop_read_only (store : Store) :
    ∀ (fuel : Nat) (tok : Option String) (acc : List ImageItem)
      (tr : List StorageOp) (r : Except Unit (List ImageItem))
      (out : List StorageOp),
      (∀ op ∈ tr, isReadRequest op = true) →
      loadImagesLoop store fuel tok acc tr = some (r, out) →
      ∀ op ∈ out, isReadRequest op = true := by
  intro fuel
  induction fuel with
  | zero =>
    intro tok acc tr r out h heq
    simp [loadImagesLoop] at heq
  | succ m ih =>
    intro tok acc tr r out h heq
    have h1 : ∀ op ∈ tr ++ [StorageOp.listOp "images/" 100 tok],
        isReadRequest op = true := by
      intro op hop
      rcases List.mem_append.mp hop with hh | hh
      · exact h op hh
      · simp at hh
        subst hh
        rfl
    cases hl : store.list "images/" 100 tok with
    | error e =>
      simp only [loadImagesLoop, hl, Option.some.injEq, Prod.mk.injEq] at heq
      obtain ⟨-, h4⟩ := heq
      subst h4
      exact h1
    | ok result =>
      simp only [loadImagesLoop, hl] at heq
      have hops := resolvePage_ops store (result.items.filter isImageFile)
      have h2 : ∀ op ∈ (tr ++ [StorageOp.listOp "images/" 100 tok]) ++
          (resolvePage store (result.items.filter isImageFile)).2,
          isReadRequest op = true := by
        intro op hop
        rcases List.mem_append.mp hop with hh | hh
        · exact h1 op hh
        · obtain ⟨p, rfl⟩ := hops op hh
          rfl
      cases hr : (resolvePage store (result.items.filter isImageFile)).1 with
      | error e =>
        simp only [hr, Option.some.injEq, Prod.mk.injEq] at heq
        obtain ⟨-, h4⟩ := heq
        subst h4
        exact h2
      | ok imgs =>
        simp only [hr] at heq
        by_cases hj : jsTruthy result.nextToken = true
        · rw [if_pos hj] at heq
          exact ih _ _ _ _ _ h2 heq
        · rw [if_neg hj] at heq
          simp only [Option.some.injEq, Prod.mk.injEq] at heq
          obtain ⟨-, h4⟩ := heq
          subst h4
          exact h2

/-- The five recognized image extensions, as the spec lists them. -/
def imageExtensions : List String := [".jpg", ".jpeg", ".png", ".gif", ".webp"]

/-- Predicate in the spec's words: the key's extension, case-insensitively,
is one of the recognized image extensions — i.e. the lowercased key ends
with one of them. -/
def specIsImage (key : String) : Bool :=
  imageExtensions.any (fun ext => strEndsWith (strToLower key) ext)

theorem isImageFile_eq_specIsImage (item : StorageItem) :
    isImageFile item = specIsImage item.path := by
  simp [isImageFile, specIsImage, imageExtensions, Bool.or_assoc]

/-- C1: for every bucket contents, `loadImages` succeeds and returns
records for exactly those listed objects whose key ends,
case-insensitively, with one of the extensions jpg, jpeg, png, gif,
webp; every other object is excluded and no error is raised. -/
theorem loadImages_filters_image_extensions (b : PagedBucket) (n : Nat)
    (hlen : b.pages.length ≤ n + 1) :
    ∃ tr, loadImages (bucketStore b) (n + 1) =
      some (.ok ((b.pages.flatten.filter
          (fun item => specIsImage item.path)).map (mkRecord b)), tr) := by
  refine ⟨traceFrom b 0, ?_⟩
  rw [loadImages_bucketStore b n hlen]
  have hfc : b.pages.flatten.filter isImageFile =
      b.pages.flatten.filter (fun item => specIsImage item.path) :=
    List.filter_congr fun a _ => isImageFile_eq_specIsImage a
  rw [hfc]

/-- Mixed-extension one-page bucket used to exercise the filter: an
uppercase PNG, a text file and a lowercase jpeg. -/
def mixedBucket : PagedBucket :=
  { pages := [[⟨"images/1.PNG", some 11, some 1⟩,
               ⟨"images/2.txt", some 22, some 2⟩,
               ⟨"images/3.jpeg", some 33, some 3⟩]],
    urlOf := fun k => String.append "https://signed/" k }

theorem loadImages_filters_image_extensions_witness :
    mixedBucket.pages.length ≤ 0 + 1 ∧
    (∃ tr, loadImages (bucketStore mixedBucket) (0 + 1) =
      some (.ok ((mixedBucket.pages.flatten.filter
          (fun item => specIsImage item.path)).map (mkRecord mixedBucket)), tr)) ∧
    (mixedBucket.pages.flatten.filter
        (fun item => specIsImage item.path)).map (mkRecord mixedBucket) =
      [⟨"images/1.PNG", "https://signed/images/1.PNG", some 11, some 1⟩,
       ⟨"images/3.jpeg", "https://signed/images/3.jpeg", some 33, some 3⟩] :=
  ⟨by decide, loadImages_filters_image_extensions mixedBucket 0 (by decide),
   by decide⟩

/-- C4: the records in the result appear in the order the storage
listing returned their keys — earlier pages first, listing order within
a page — and the retained keys form a sublist of all listed keys, so no
additional sort is applied. -/
theorem loadImages_preserves_listing_order (b : PagedBucket) (n : Nat)
    (hlen : b.pages.length ≤ n + 1) :
    ∃ imgs tr, loadImages (bucketStore b) (n + 1) = some (.ok imgs, tr) ∧
      imgs.map (fun r => r.key) =
        (b.pages.flatten.map (fun it => it.path)).filter specIsImage ∧
      ((b.pages.flatten.map (fun it => it.path)).filter specIsImage).Sublist
        (b.pages.flatten.map (fun it => it.path)) := by
  refine ⟨_, _, loadImages_bucketStore b n hlen, ?_, List.filter_sublist _⟩
  have hcomp : ((fun r : ImageItem => r.key) ∘ mkRecord b) =
      fun it : StorageItem => it.path := rfl
  have hfc : b.pages.flatten.filter (specIsImage ∘ fun it : StorageItem => it.path) =
      b.pages.flatten.filter isImageFile :=
    List.filter_congr fun a _ => (isImageFile_eq_specIsImage a).symm
  rw [List.map_map, hcomp, List.filter_map, hfc]

theorem loadImages_preserves_listing_order_witness :
    mixedBucket.pages.length ≤ 0 + 1 ∧
    (∃ imgs tr, loadImages (bucketStore mixedBucket) (0 + 1) = some (.ok imgs, tr) ∧
      imgs.map (fun r => r.key) =
        (mixedBucket.pages.flatten.map (fun it => it.path)).filter specIsImage ∧
      ((mixedBucket.pages.flatten.map (fun it => it.path)).filter specIsImage).Sublist
        (mixedBucket.pages.flatten.map (fun it => it.path))) ∧
    (mixedBucket.pages.flatten.map (fun it => it.path)).filter specIsImage =
      ["images/1.PNG", "images/3.jpeg"] :=
  ⟨by decide, loadImages_preserves_listing_order mixedBucket 0 (by decide),
   by decide⟩

/-- C3: for every nonempty bucket contents, the traversal issues exactly
one `list` request per page, each with page size 100, the first with an
absent cursor and each later one with the token the previous page
returned, stopping exactly when a page carries no token; the result is
the image-filtered concatenation of all pages. -/
theorem loadImages_pagination_requests (b : PagedBucket) (n : Nat)
    (hlen : b.pages.length ≤ n + 1) (hne : b.pages ≠ []) :
    ∃ imgs tr, loadImages (bucketStore b) (n + 1) = some (.ok imgs, tr) ∧
      listOpsOf tr = (List.range' 0 b.pages.length).map
        (fun j => .listOp "images/" 100 (tokenFor j)) ∧
      (listOpsOf tr).length = b.pages.length ∧
      imgs = (b.pages.flatten.filter isImageFile).map (mkRecord b) := by
  have hpos : 0 < b.pages.length := List.length_pos.mpr hne
  refine ⟨_, _, loadImages_bucketStore b n hlen, ?_, ?_, rfl⟩
  · rw [listOpsOf_traceFrom b b.pages.length 0 (by omega)]
    have hm : max 1 (b.pages.length - 0) = b.pages.length := by omega
    rw [hm]
  · rw [listOpsOf_traceFrom b b.pages.length 0 (by omega)]
    simp [List.length_range']
    omega

/-- Three-page bucket of sizes 100, 100 and 37, every item an image. -/
def bigBucket : PagedBucket :=
  { pages := [List.replicate 100 ⟨"images/a.jpg", some 1, some 1⟩,
              List.replicate 100 ⟨"images/b.png", some 2, some 2⟩,
              List.replicate 37 ⟨"images/c.gif", some 3, some 3⟩],
    urlOf := fun k => k }

theorem loadImages_pagination_requests_witness :
    (bigBucket.pages.length ≤ 2 + 1 ∧ bigBucket.pages ≠ []) ∧
    (∃ imgs tr, loadImages (bucketStore bigBucket) (2 + 1) = some (.ok imgs, tr) ∧
      listOpsOf tr = (List.range' 0 bigBucket.pages.length).map
        (fun j => .listOp "images/" 100 (tokenFor j)) ∧
      (listOpsOf tr).length = bigBucket.pages.length ∧
      imgs = (bigBucket.pages.flatten.filter isImageFile).map (mkRecord bigBucket)) ∧
    bigBucket.pages.length = 3 ∧
    ((bigBucket.pages.flatten.filter isImageFile).map (mkRecord bigBucket)).length = 237 := by
  have ha : isImageFile ⟨"images/a.jpg", some 1, some 1⟩ = true := by decide
  have hb : isImageFile ⟨"images/b.png", some 2, some 2⟩ = true := by decide
  have hc : isImageFile ⟨"images/c.gif", some 3, some 3⟩ = true := by decide
  refine ⟨⟨by decide, by decide⟩,
    loadImages_pagination_requests bigBucket 2 (by decide) (by decide),
    by decide, ?_⟩
  have hfl : bigBucket.pages.flatten =
      List.replicate 100 ⟨"images/a.jpg", some 1, some 1⟩ ++
      (List.replicate 100 ⟨"images/b.png", some 2, some 2⟩ ++
       (List.replicate 37 ⟨"images/c.gif", some 3, some 3⟩ ++ [])) := rfl
  rw [List.length_map, hfl, List.filter_append, List.filter_append,
    List.filter_append, List.filter_replicate, List.filter_replicate,
    List.filter_replicate, ha, hb, hc]
  simp only [eq_self_iff_true, if_true, List.append_nil, List.length_append,
    List.length_replicate, List.filter_nil, List.length_nil]

/-- C5: every retained item of a page is resolved by a `getUrl` request
with the fixed expiry 3600, and its record is built exactly from the
item's key, the URL that request returned, the item's size and its
last-modified time. -/
theorem resolvePage_signed_url_records (store : Store)
    (items : List StorageItem) (imgs : List ImageItem)
    (h : (resolvePage store items).1 = .ok imgs) :
    (∀ op ∈ (resolvePage store items).2, ∃ p, op = .getUrlOp p 3600) ∧
    List.Forall₂ (fun item img =>
      img.key = item.path ∧
      store.getUrl item.path 3600 = .ok img.url ∧
      img.size = item.size ∧ img.lastModified = item.lastModified) items imgs :=
  ⟨resolvePage_ops store items, resolvePage_ok store items imgs h⟩

/-- Store whose signed URLs prepend a fixed host to the key. -/
def urlStore : Store :=
  { list := fun _ _ _ => .ok { items := [], nextToken := none },
    getUrl := fun p _ => .ok (String.append "u:" p) }

theorem resolvePage_signed_url_records_witness :
    (resolvePage urlStore [⟨"images/a.jpg", some 5, some 7⟩]).1 =
      .ok [⟨"images/a.jpg", "u:images/a.jpg", some 5, some 7⟩] ∧
    ((∀ op ∈ (resolvePage urlStore [⟨"images/a.jpg", some 5, some 7⟩]).2,
        ∃ p, op = .getUrlOp p 3600) ∧
      List.Forall₂ (fun (item : StorageItem) (img : ImageItem) =>
        img.key = item.path ∧
        urlStore.getUrl item.path 3600 = .ok img.url ∧
        img.size = item.size ∧ img.lastModified = item.lastModified)
        [⟨"images/a.jpg", some 5, some 7⟩]
        [⟨"images/a.jpg", "u:images/a.jpg", some 5, some 7⟩]) :=
  ⟨rfl, resolvePage_signed_url_records urlStore _ _ rfl⟩

/-- C7: two runs against identical bucket contents, differing only in
the URLs the service mints, both succeed and agree on keys, sizes and
last-modified values in the same order. -/
theorem loadImages_idempotent_metadata (pages : List (List StorageItem))
    (u1 u2 : String → String) (n : Nat) (hlen : pages.length ≤ n + 1) :
    ∃ imgs1 imgs2 tr1 tr2,
      loadImages (bucketStore ⟨pages, u1⟩) (n + 1) = some (.ok imgs1, tr1) ∧
      loadImages (bucketStore ⟨pages, u2⟩) (n + 1) = some (.ok imgs2, tr2) ∧
      imgs1.map (fun r => (r.key, r.size, r.lastModified)) =
        imgs2.map (fun r => (r.key, r.size, r.lastModified)) := by
  refine ⟨_, _, _, _, loadImages_bucketStore ⟨pages, u1⟩ n hlen,
    loadImages_bucketStore ⟨pages, u2⟩ n hlen, ?_⟩
  rw [List.map_map, List.map_map]
  rfl

theorem loadImages_idempotent_metadata_witness :
    mixedBucket.pages.length ≤ 0 + 1 ∧
    ∃ imgs1 imgs2 tr1 tr2,
      loadImages (bucketStore ⟨mixedBucket.pages, fun k => k⟩) (0 + 1) =
        some (.ok imgs1, tr1) ∧
      loadImages (bucketStore ⟨mixedBucket.pages, fun k => String.append "v2/" k⟩)
        (0 + 1) = some (.ok imgs2, tr2) ∧
      imgs1.map (fun r => (r.key, r.size, r.lastModified)) =
        imgs2.map (fun r => (r.key, r.size, r.lastModified)) :=
  ⟨by decide,
   loadImages_idempotent_metadata mixedBucket.pages _ _ 0 (by decide)⟩

/-- C2: if the second page's listing call fails, or a retained item's
URL resolution fails on the first page, the entire call fails with the
storage error and no partial result — in particular none of the first
page's already-built records — is ever returned. -/
theorem loadImages_fail_fast (store : Store) :
    (∀ (n : Nat) (res1 : ListResult) (imgs1 : List ImageItem)
       (ops1 : List StorageOp) (tok1 : String),
       store.list "images/" 100 none = .ok res1 →
       resolvePage store (res1.items.filter isImageFile) = (.ok imgs1, ops1) →
       res1.nextToken = some tok1 → tok1 ≠ "" →
       store.list "images/" 100 (some tok1) = .error () →
       (∃ tr, loadImages store (n + 2) = some (.error (), tr)) ∧
         ∀ imgs tr', loadImages store (n + 2) ≠ some (.ok imgs, tr')) ∧
    (∀ (res1 : ListResult) (ops1 : List StorageOp) (fuel : Nat),
       store.list "images/" 100 none = .ok res1 →
       resolvePage store (res1.items.filter isImageFile) = (.error (), ops1) →
       (∃ tr, loadImages store (fuel + 1) = some (.error (), tr)) ∧
         ∀ imgs tr', loadImages store (fuel + 1) ≠ some (.ok imgs, tr')) := by
  constructor
  · intro n res1 imgs1 ops1 tok1 h1 h2 h3 h4 h5
    have hj : jsTruthy res1.nextToken = true := by
      rw [h3]
      simp [jsTruthy, h4]
    have heq : loadImages store (n + 2) =
        some (.error (), ([] ++ [.listOp "images/" 100 none] ++ ops1) ++
          [.listOp "images/" 100 (some tok1)]) := by
      show loadImagesLoop store (n + 2) none [] [] = _
      simp only [loadImagesLoop, h1, h2, hj, if_pos]
      simp only [loadImagesLoop, h3, h5]
    refine ⟨⟨_, heq⟩, ?_⟩
    intro imgs tr' hcon
    rw [heq] at hcon
    simp at hcon
  · intro res1 ops1 fuel h1 h2
    have heq : loadImages store (fuel + 1) =
        some (.error (), ([] ++ [.listOp "images/" 100 none]) ++ ops1) := by
      show loadImagesLoop store (fuel + 1) none [] [] = _
      simp only [loadImagesLoop, h1, h2]
    refine ⟨⟨_, heq⟩, ?_⟩
    intro imgs tr' hcon
    rw [heq] at hcon
    simp at hcon

/-- Store whose first listing page succeeds with one image item and a
truthy token, and whose second listing call fails. -/
def secondPageFailStore : Store :=
  { list := fun _ _ tok =>
      match tok with
      | none => .ok { items := [⟨"images/a.jpg", some 1, some 2⟩],
                      nextToken := some "t" }
      | some _ => .error (),
    getUrl := fun p _ => .ok p }

/-- Store whose listing succeeds but whose URL resolution fails. -/
def urlFailStore : Store :=
  { list := fun _ _ _ =>
      .ok { items := [⟨"images/a.jpg", some 1, some 2⟩], nextToken := none },
    getUrl := fun _ _ => .error () }

theorem loadImages_fail_fast_witness :
    ((∃ tr, loadImages secondPageFailStore (0 + 2) = some (.error (), tr)) ∧
      ∀ imgs tr', loadImages secondPageFailStore (0 + 2) ≠ some (.ok imgs, tr')) ∧
    ((∃ tr, loadImages urlFailStore (0 + 1) = some (.error (), tr)) ∧
      ∀ imgs tr', loadImages urlFailStore (0 + 1) ≠ some (.ok imgs, tr')) :=
  ⟨(loadImages_fail_fast secondPageFailStore).1 0
      { items := [⟨"images/a.jpg", some 1, some 2⟩], nextToken := some "t" }
      [⟨"images/a.jpg", "images/a.jpg", some 1, some 2⟩]
      [.getUrlOp "images/a.jpg" 3600] "t" rfl rfl rfl (by decide) rfl,
   (loadImages_fail_fast urlFailStore).2
      { items := [⟨"images/a.jpg", some 1, some 2⟩], nextToken := none }
      [.getUrlOp "images/a.jpg" 3600] 0 rfl rfl⟩

/-- C6: when the prefix matches zero objects — the store answers the
first listing with an empty item list and no continuation token — the
loader returns an empty sequence after that single request and does not
fail. -/
theorem loadImages_empty_listing_ok (store : Store) (fuel : Nat)
    (h : store.list "images/" 100 none =
      .ok { items := [], nextToken := none }) :
    loadImages store (fuel + 1) =
      some (.ok [], [.listOp "images/" 100 none]) := by
  show loadImagesLoop store (fuel + 1) none [] [] = _
  simp only [loadImagesLoop, h]
  rfl

/-- Store over an empty namespace: every listing is empty. -/
def emptyStore : Store :=
  { list := fun _ _ _ => .ok { items := [], nextToken := none },
    getUrl := fun p _ => .ok p }

theorem loadImages_empty_listing_ok_witness :
    emptyStore.list "images/" 100 none =
      .ok { items := [], nextToken := none } ∧
    loadImages emptyStore (0 + 1) =
      some (.ok [], [.listOp "images/" 100 none]) :=
  ⟨rfl, loadImages_empty_listing_ok emptyStore 0 rfl⟩

/-- C8: any completed invocation issues only read requests — `list` and
`getUrl` — to the storage service: its trace never contains an upload
or a remove request, so the bucket contents are untouched. -/
theorem loadImages_read_only (store : Store) (fuel : Nat)
    (r : Except Unit (List ImageItem)) (tr : List StorageOp)
    (h : loadImages store fuel = some (r, tr)) :
    ∀ op ∈ tr, isReadRequest op = true ∧
      (∀ p, op ≠ .uploadOp p) ∧ (∀ p, op ≠ .removeOp p) := by
  intro op hop
  have hread : isReadRequest op = true :=
    loadImagesLoop_read_only store fuel none [] [] r tr (by simp) h op hop
  refine ⟨hread, fun p hcon => ?_, fun p hcon => ?_⟩
  · rw [hcon] at hread
    simp [isReadRequest] at hread
  · rw [hcon] at hread
    simp [isReadRequest] at hread

theorem loadImages_read_only_witness :
    loadImages urlStore (0 + 1) =
      some (.ok [], [.listOp "images/" 100 none]) ∧
    ∀ op ∈ [StorageOp.listOp "images/" 100 none], isReadRequest op = true ∧
      (∀ p, op ≠ .uploadOp p) ∧ (∀ p, op ≠ .removeOp p) :=
  ⟨rfl, loadImages_read_only urlStore (0 + 1) (.ok []) _ rfl⟩

/-- C9: a returned empty-string continuation token is falsy, so the
loop terminates after that page: the whole run issues exactly one
`list` request and returns that page's records. -/
theorem loadImages_empty_token_stops (store : Store) (fuel : Nat)
    (res : ListResult) (imgs : List ImageItem) (ops : List StorageOp)
    (h1 : store.list "images/" 100 none = .ok res)
    (h2 : res.nextToken = some "")
    (h3 : resolvePage store (res.items.filter isImageFile) = (.ok imgs, ops)) :
    loadImages store (fuel + 1) =
      some (.ok imgs, .listOp "images/" 100 none :: ops) ∧
    listOpsOf (.listOp "images/" 100 none :: ops) =
      [.listOp "images/" 100 none] := by
  constructor
  · have hj : jsTruthy res.nextToken = false := by
      rw [h2]
      rfl
    show loadImagesLoop store (fuel + 1) none [] [] = _
    simp only [loadImagesLoop, h1, h3, hj]
    simp
  · have hops := resolvePage_ops store (res.items.filter isImageFile)
    rw [h3] at hops
    show (StorageOp.listOp "images/" 100 none :: ops).filter isListRequest = _
    rw [List.filter_cons_of_pos (by rfl), List.filter_eq_nil_iff.mpr]
    intro a ha
    obtain ⟨p, rfl⟩ := hops a ha
    simp [isListRequest]

/-- Store whose single page carries an empty-string continuation
token. -/
def emptyTokenStore : Store :=
  { list := fun _ _ _ =>
      .ok { items := [⟨"images/a.jpg", some 4, some 9⟩], nextToken := some "" },
    getUrl := fun p _ => .ok p }

theorem loadImages_empty_token_stops_witness :
    loadImages emptyTokenStore (0 + 1) =
      some (.ok [⟨"images/a.jpg", "images/a.jpg", some 4, some 9⟩],
        .listOp "images/" 100 none :: [.getUrlOp "images/a.jpg" 3600]) ∧
    listOpsOf (.listOp "images/" 100 none :: [.getUrlOp "images/a.jpg" 3600]) =
      [.listOp "images/" 100 none] :=
  loadImages_empty_token_stops emptyTokenStore 0
    { items := [⟨"images/a.jpg", some 4, some 9⟩], nextToken := some "" }
    [⟨"images/a.jpg", "images/a.jpg", some 4, some 9⟩]
    [.getUrlOp "images/a.jpg" 3600] rfl rfl rfl

/-- C10: when a traversal fails, the displayed catalog state keeps its
previous value: `setImages` runs only after a fully successful
traversal, so a failed reload never replaces the last shown result. -/
theorem loadImages_failure_keeps_state (store : Store) (fuel : Nat)
    (prev : List ImageItem) (e : Unit) (tr : List StorageOp)
    (h : loadImages store fuel = some (.error e, tr)) :
    loadImagesSetState store fuel prev = some prev := by
  simp [loadImagesSetState, h]

theorem loadImages_failure_keeps_state_witness :
    loadImages urlFailStore 1 =
      some (.error (), [.listOp "images/" 100 none,
        .getUrlOp "images/a.jpg" 3600]) ∧
    loadImagesSetState urlFailStore 1
      [⟨"k.png", "u", some 3, some 4⟩] = some [⟨"k.png", "u", some 3, some 4⟩] :=
  ⟨rfl, loadImages_failure_keeps_state urlFailStore 1
    [⟨"k.png", "u", some 3, some 4⟩] () _ rfl⟩
